import Mathlib

/-!
Verification of the AgentFi backend (src/AgentFi-backend/index.js).

The file shallowly embeds the two Express handlers of the backend:
`POST /api/chat` (a Gemini tool-calling loop relaying tool invocations to a
remote Go service) and `GET /api/dashboard` (two fixed tool fetches reshaped
into a dashboard summary).  External collaborators (the Gemini SDK chat
session and the remote tool service) are modelled as oracles supplied as
parameters; JavaScript platform primitives (`JSON.parse`, `parseInt`,
`String.prototype.replace/startsWith/trim`, property access) are modelled by
executable Lean functions that follow the JavaScript semantics on the value
shapes this program can produce.
-/

set_option maxRecDepth 10000

/-- JavaScript values as far as this backend observes them.  JS numbers are
IEEE doubles; every number this program manipulates is an exact integer
(`id: 1`, parsed integer fields), so `Int` is used. -/
inductive JsValue where
  | null
  | bool (b : Bool)
  | num (n : Int)
  | str (s : String)
  | arr (elems : List JsValue)
  | obj (fields : List (String × JsValue))

/-- Last-binding lookup in an object's field list (JS object semantics:
for duplicate keys the later binding wins). -/
def lookupLast (fs : List (String × JsValue)) (k : String) : Option JsValue :=
  fs.foldl (fun acc p => if p.1 = k then some p.2 else acc) none

/-- JS property access `v.k`.  The input `Option JsValue` uses `none` for
`undefined`.  The outer `Option` is the exception effect: reading a property
of `undefined` or `null` throws a TypeError; on any other non-object value
the property is simply absent (`undefined`). -/
def jsGet (v : Option JsValue) (k : String) : Option (Option JsValue) :=
  match v with
  | none => none
  | some .null => none
  | some (.obj fs) => some (lookupLast fs k)
  | some _ => some none

/-- JS index access `v[i]`.  Same conventions as `jsGet`.  Indexing a
non-array non-null value yields `undefined` here (for the one string-indexing
corner, `"s"[0]` is a 1-character string whose `.text` is `undefined`, so the
observable outcome downstream is identical). -/
def jsIndex (v : Option JsValue) (i : Nat) : Option (Option JsValue) :=
  match v with
  | none => none
  | some .null => none
  | some (.arr xs) => some (xs.get? i)
  | some _ => some none

/-- A value usable as a string receiver for `.startsWith`/`.replace`
(calling those on a non-string throws). -/
def asJsString (v : Option JsValue) : Option String :=
  match v with
  | some (.str s) => some s
  | _ => none

/-- A value usable as an array receiver for `.filter`/`.map`
(calling those on a non-array throws). -/
def asJsArray (v : Option JsValue) : Option (List JsValue) :=
  match v with
  | some (.arr xs) => some xs
  | _ => none

/-- The whitespace characters relevant to JS `trim`/`parseInt` on the data
this backend handles (ASCII whitespace). -/
def jsWs (c : Char) : Bool :=
  c = ' ' || c = '\n' || c = '\t' || c = '\r'

/-- JS `String.prototype.startsWith`, on character lists. -/
def jsStartsWith (s pat : String) : Bool :=
  pat.data.isPrefixOf s.data

/-- JS `String.prototype.replace` with a plain-string pattern: replaces the
first occurrence of `pat` (scanning left to right) by `rep`; for the empty
pattern the replacement is inserted at the start, as in JS. -/
def jsReplaceOnce (pat rep : List Char) : List Char → List Char
  | [] => if pat.isPrefixOf ([] : List Char) then rep ++ ([] : List Char) else []
  | c :: cs =>
    if pat.isPrefixOf (c :: cs) then rep ++ (c :: cs).drop pat.length
    else c :: jsReplaceOnce pat rep cs

/-- Digit run to a natural number, most significant first. -/
def digitsToNat (l : List Char) : Nat :=
  l.foldl (fun a c => a * 10 + (c.toNat - 48)) 0

/-- JS `parseInt` with no radix argument, on the decimal strings this backend
feeds it: skip leading whitespace, optional sign, then the longest run of
decimal digits; `none` models `NaN` (no digit found).  The `0x` hexadecimal
autodetection of `parseInt` is not modelled: none of the parsed fields can
start with `0x` in the shapes considered here. -/
def jsParseInt (s : String) : Option Int :=
  let l := s.data.dropWhile jsWs
  let signAndRest : Int × List Char :=
    match l with
    | c :: rest => if c = '-' then (-1, rest) else if c = '+' then (1, rest) else (1, l)
    | [] => (1, [])
  let ds := signAndRest.2.takeWhile Char.isDigit
  if ds = [] then none else some (signAndRest.1 * (digitsToNat ds : Int))

/-- JS `parseInt` applied to a possibly-undefined property value, as in
`parseInt(x.units)`:  `parseInt` never throws; a string is parsed, an
(integral) number round-trips through `String()`, and `undefined`, `null`,
booleans and objects coerce to strings with no leading digits, hence `NaN`
(`none`).  (A JS array would coerce to the join of its elements; arrays never
reach `parseInt` in the shapes considered here.) -/
def jsParseIntV (v : Option JsValue) : Option Int :=
  match v with
  | some (.str s) => jsParseInt s
  | some (.num n) => some n
  | _ => none

/-- `NaN` (modelled as `none`) serializes to `null` under `res.json`, exactly
like `JSON.stringify(NaN)`. -/
def intToJson (v : Option Int) : JsValue :=
  match v with
  | none => .null
  | some n => .num n

/-- The backtick character (used by the markdown-fence stripping). -/
def btChar : Char := Char.ofNat 96

/-- First alternative of the cleaning regex: the literal characters of
the json code-fence opener followed by a newline. -/
def fenceJson : List Char := "```json\n".data

/-- Second alternative of the cleaning regex: a bare triple backtick. -/
def fence : List Char := "```".data

/-- One left-to-right global pass of `replace(/```json\n|```/g, "")`:
at each position try the first alternative, then the second, else keep the
character.  Fuel-driven structural recursion (`fuel = length` suffices since
every step consumes at least one character). -/
def stripFencesGo : Nat → List Char → List Char
  | 0, _ => []
  | _ + 1, [] => []
  | n + 1, c :: cs =>
    if fenceJson.isPrefixOf (c :: cs) then stripFencesGo n ((c :: cs).drop 8)
    else if fence.isPrefixOf (c :: cs) then stripFencesGo n ((c :: cs).drop 3)
    else c :: stripFencesGo n cs

/-- The global fence-removing replace on a character list. -/
def stripFences (l : List Char) : List Char :=
  stripFencesGo l.length l

/-- JS `String.prototype.trim` on character lists: drop whitespace from both
ends. -/
def jsTrim (l : List Char) : List Char :=
  (((l.dropWhile jsWs).reverse.dropWhile jsWs)).reverse

/-- Line 129 of index.js: `finalReplyText.replace(/```json\n|```/g, "").trim()`. -/
def cleanReply (s : String) : String :=
  String.mk (jsTrim (stripFences s.data))

/-- Characters of a JSON string literal after the opening quote: returns the
decoded characters and the remainder after the closing quote.  Handles the
escapes that can occur in the mock payloads; `none` on an unterminated or
malformed literal. -/
def parseStringLit : List Char → Option (List Char × List Char)
  | [] => none
  | c :: cs =>
    if c = '"' then some ([], cs)
    else if c = '\\' then
      match cs with
      | [] => none
      | e :: cs' =>
        let dec : Option Char :=
          if e = '"' then some '"'
          else if e = '\\' then some '\\'
          else if e = '/' then some '/'
          else if e = 'n' then some '\n'
          else if e = 't' then some '\t'
          else if e = 'r' then some '\r'
          else none
        match dec with
        | none => none
        | some d =>
          match parseStringLit cs' with
          | none => none
          | some (rest, rem) => some (d :: rest, rem)
    else
      match parseStringLit cs with
      | none => none
      | some (rest, rem) => some (c :: rest, rem)

/-- Opening and closing braces as characters (written via code points). -/
def lbrace : Char := Char.ofNat 123

/-- Closing brace character. -/
def rbrace : Char := Char.ofNat 125

/-- Recursive-descent JSON value parser with fuel.  After a comma inside an
array or object, the remaining elements are parsed by re-entering the parser
on a synthetic re-opened collection, which keeps the recursion in a single
function (structural on the fuel, hence kernel-evaluable).  Supported
grammar: `null`, `true`, `false`, integer numbers with optional minus,
string literals, arrays, objects — the grammar actually exercised by the
mock tool payloads.  Returns the value and the unconsumed remainder. -/
def parseJsonGo : Nat → List Char → Option (JsValue × List Char)
  | 0, _ => none
  | n + 1, input =>
    match input.dropWhile jsWs with
    | [] => none
    | c :: cs =>
      if c = 'n' then
        if ['u', 'l', 'l'].isPrefixOf cs then some (.null, cs.drop 3) else none
      else if c = 't' then
        if ['r', 'u', 'e'].isPrefixOf cs then some (.bool true, cs.drop 3) else none
      else if c = 'f' then
        if ['a', 'l', 's', 'e'].isPrefixOf cs then some (.bool false, cs.drop 4) else none
      else if c = '"' then
        match parseStringLit cs with
        | none => none
        | some (chars, rem) => some (.str (String.mk chars), rem)
      else if c = '-' then
        let ds := cs.takeWhile Char.isDigit
        if ds = [] then none
        else some (.num (-(digitsToNat ds : Int)), cs.dropWhile Char.isDigit)
      else if c.isDigit then
        let ds := (c :: cs).takeWhile Char.isDigit
        some (.num (digitsToNat ds : Int), (c :: cs).dropWhile Char.isDigit)
      else if c = '[' then
        match (cs.dropWhile jsWs) with
        | ']' :: rem => some (.arr [], rem)
        | _ =>
          match parseJsonGo n cs with
          | none => none
          | some (v, rem) =>
            match rem.dropWhile jsWs with
            | ']' :: rem' => some (.arr [v], rem')
            | ',' :: rem' =>
              match parseJsonGo n ('[' :: rem') with
              | some (.arr vs, rem'') => some (.arr (v :: vs), rem'')
              | _ => none
            | _ => none
      else if c = lbrace then
        match (cs.dropWhile jsWs) with
        | d :: rem0 =>
          if d = rbrace then some (.obj [], rem0)
          else if d = '"' then
            match parseStringLit rem0 with
            | none => none
            | some (kchars, rem1) =>
              match rem1.dropWhile jsWs with
              | ':' :: rem2 =>
                match parseJsonGo n rem2 with
                | none => none
                | some (v, rem3) =>
                  match rem3.dropWhile jsWs with
                  | d' :: rem4 =>
                    if d' = rbrace then some (.obj [(String.mk kchars, v)], rem4)
                    else if d' = ',' then
                      match parseJsonGo n (lbrace :: rem4) with
                      | some (.obj fs, rem5) => some (.obj ((String.mk kchars, v) :: fs), rem5)
                      | _ => none
                    else none
                  | [] => none
              | _ => none
          else none
        | [] => none
      else none

/-- JS `JSON.parse` on a string: parse one value and require only trailing
whitespace after it; `none` models the thrown `SyntaxError`. -/
def jsonParse (s : String) : Option JsValue :=
  match parseJsonGo (s.data.length + 2) s.data with
  | none => none
  | some (v, rem) => if rem.dropWhile jsWs = [] then some v else none

/-- `JSON.parse(x)` where `x` is a possibly-undefined property value: the
argument is coerced to a string first, so a string argument is parsed, the
primitives round-trip, and `undefined` (the string `"undefined"`) throws.
Objects and arrays coerce to strings that are not valid JSON for the shapes
considered here. -/
def jsJsonParseV (x : Option JsValue) : Option JsValue :=
  match x with
  | some (.str s) => jsonParse s
  | some (.num n) => some (.num n)
  | some (.bool b) => some (.bool b)
  | some .null => some .null
  | _ => none

/-- Base URL of the remote tool service (line 13 of index.js). -/
def goAdkUrl : String := "http://localhost:8080"

/-- An outbound HTTP call to the remote tool endpoint, as built by
`axios.post` in both handlers: URL, JSON body and the two headers. -/
structure ToolRequest where
  url : String
  body : JsValue
  contentType : String
  mcpSessionId : String

/-- The JSON-RPC-shaped body sent for a tool invocation (lines 92-97 and 167
of index.js).  The `arguments` member is always the empty object. -/
def mkToolCallBody (name : String) : JsValue :=
  .obj [("jsonrpc", .str "2.0"), ("id", .num 1), ("method", .str "tools/call"),
        ("params", .obj [("name", .str name), ("arguments", .obj [])])]

/-- The relay request for one tool name, correlated by the `Mcp-Session-Id`
header (lines 90-104 and 165-169 of index.js). -/
def mkToolRequest (sid name : String) : ToolRequest :=
  ⟨goAdkUrl ++ "/mcp/stream", mkToolCallBody name, "application/json", sid⟩

/-- The remote tool service as an oracle: `some body` is a successful
response (its parsed JSON body, i.e. `response.data`), `none` a failed
request (network error or error status — `axios` rejects the promise). -/
abbrev ToolService : Type := ToolRequest → Option JsValue

/-- `Promise.all` over the relay calls of one batch: all requests are issued,
and the join succeeds only if every call succeeds (all-or-nothing). -/
def collectAll (svc : ToolService) : List ToolRequest → Option (List JsValue)
  | [] => some []
  | q :: qs =>
    match svc q, collectAll svc qs with
    | some d, some ds => some (d :: ds)
    | _, _ => none

/-- A tool invocation requested by the model: a name and the structured
arguments the model attached (the backend ignores the arguments). -/
structure FunctionCall where
  name : String
  args : JsValue

/-- One model response: the requested tool invocations and the response
text.  The SDK's `functionCalls()` returns either `undefined` or an array;
both `undefined` and `[]` exit the loop, so both are modelled as `[]`. -/
structure ModelResponse where
  functionCalls : List FunctionCall
  text : String

/-- Modelled from the spec: one entry of the conversational state held by a
session of the model adapter (spec 3 "Session" and 4.3): the ordered history
alternates user messages, batched tool-result payloads and model responses.
The adapter itself lives in the `@google/generative-ai` SDK, outside this
repository. -/
inductive ChatEntry where
  | user (text : String)
  | functionResponses (rs : List (String × JsValue))
  | model (r : ModelResponse)

/-- Modelled from the spec: the generative-model API as an oracle mapping the
session history (ending in the just-sent payload) to the next model response;
`none` models a failed model call (the SDK rejecting). -/
abbrev Gemini : Type := List ChatEntry → Option ModelResponse

/-- The in-memory session registry `chatSessions` (line 48): session
identifier to conversational state.  A JS `Map` preserving insertion order
and replacing on `set`. -/
abbrev Registry : Type := List (String × List ChatEntry)

/-- `chatSessions.get` / `chatSessions.has` (a JS `Map` holds at most one
binding per key). -/
def lookupSession : Registry → String → Option (List ChatEntry)
  | [], _ => none
  | p :: rest, k => if p.1 = k then some p.2 else lookupSession rest k

/-- `chatSessions.set`: replace the binding in place if the key is present
(a JS `Map` keeps the original insertion position), else append. -/
def setSession : Registry → String → List ChatEntry → Registry
  | [], k, v => [(k, v)]
  | p :: rest, k, v => if p.1 = k then (k, v) :: rest else p :: setSession rest k v

/-- Modelled from the spec: the system instruction installed as the first
history entry of every fresh chat session (lines 33-45 and 68 of index.js);
its prose content is never inspected by the backend, only its presence in
the history matters, so the text is abridged here. -/
def systemInstructionText : String :=
  "You are an expert financial advisor named Fi Agent. Call tools silently when data is missing; answer chart requests with a single JSON object; otherwise answer in plain analytical text."

/-- `model.startChat({ history: [systemInstruction] })` (line 68). -/
def freshHistory : List ChatEntry :=
  [ChatEntry.user systemInstructionText]

/-- How a run of the reasoning loop ended. -/
inductive ChatOutcome where
  | reply (text : String)
  | toolFailure
  | modelFailure
  | outOfFuel

/-- Instrumentation of one completed iteration of the reasoning loop: the
tool invocations the model requested, the relay requests issued for them and
the responses received. -/
structure LoopStep where
  calls : List FunctionCall
  requests : List ToolRequest
  results : List JsValue

/-- Result of running the reasoning loop: outcome, the model response that
ended the loop (when one did), the completed steps, every relay request that
was issued (including those of a failed batch), the number of model calls
made inside the loop, and the final session history. -/
structure RunResult where
  outcome : ChatOutcome
  finalResponse : Option ModelResponse
  steps : List LoopStep
  trace : List ToolRequest
  modelCalls : Nat
  history : List ChatEntry

/-- The multi-step reasoning loop of `POST /api/chat` (lines 75-124 of
index.js) with the current model response and session history made explicit.
Each iteration: if the response requests no tool invocations, stop with its
text; otherwise issue one relay call per invocation (header `Mcp-Session-Id`
= the request's sessionId), join all of them (`Promise.all`), and send the
full batch of results back to the model as one message.  The fuel bounds the
number of iterations; running out of fuel models non-termination (the real
loop would keep going). -/
def chatLoop (gem : Gemini) (svc : ToolService) (sid : String) :
    Nat → ModelResponse → List ChatEntry → RunResult
  | fuel, r, hist =>
    match r.functionCalls with
    | [] => ⟨.reply r.text, some r, [], [], 0, hist⟩
    | c :: cs =>
      match fuel with
      | 0 => ⟨.outOfFuel, none, [], [], 0, hist⟩
      | fuel' + 1 =>
        let calls := c :: cs
        let reqs := calls.map (fun fc => mkToolRequest sid fc.name)
        match collectAll svc reqs with
        | none => ⟨.toolFailure, none, [], reqs, 0, hist⟩
        | some datas =>
          let frs := List.zipWith (fun (fc : FunctionCall) (d : JsValue) => (fc.name, d)) calls datas
          let hist' := hist ++ [ChatEntry.functionResponses frs]
          match gem hist' with
          | none => ⟨.modelFailure, none, [⟨calls, reqs, datas⟩], reqs, 1, hist'⟩
          | some r' =>
            let rest := chatLoop gem svc sid fuel' r' (hist' ++ [ChatEntry.model r'])
            ⟨rest.outcome, rest.finalResponse, ⟨calls, reqs, datas⟩ :: rest.steps,
             reqs ++ rest.trace, rest.modelCalls + 1, rest.history⟩

/-- An HTTP response as sent by `res.status(..).json(..)` / `res.json(..)`. -/
structure HttpResponse where
  status : Nat
  body : JsValue

/-- Body of a `POST /api/chat` request; absent members are `none`
(`undefined` after destructuring). -/
structure ChatHttpRequest where
  message : Option String
  sessionId : Option String

/-- JS truthiness of a possibly-absent string: `undefined` and the empty
string are falsy (`if (!message || !sessionId)`). -/
def jsTruthy : Option String → Bool
  | none => false
  | some s => !(s == "")

/-- The 400 body of the chat endpoint (line 59). -/
def chatBadRequestBody : JsValue :=
  .obj [("error", .str "Message and sessionId are required.")]

/-- The generic 500 body of the chat endpoint (line 140). -/
def chatErrorBody : JsValue :=
  .obj [("error", .str "An internal server error occurred.")]

/-- Instrumented result of handling one chat request.  `response = none`
models the request hanging forever (loop fuel exhausted); `initialContext`
is the history passed to the model for the initial `sendMessage`. -/
structure ChatResult where
  response : Option HttpResponse
  sessions : Registry
  trace : List ToolRequest
  modelCalls : Nat
  steps : List LoopStep
  finalResponse : Option ModelResponse
  initialContext : Option (List ChatEntry)

/-- The conversational state this request starts from: the stored session
history if the identifier is known, else a fresh history seeded with the
system instruction (lines 62-70 of index.js). -/
def sessionBase (sessions : Registry) (sid : String) : List ChatEntry :=
  match lookupSession sessions sid with
  | some h => h
  | none => freshHistory

/-- The `POST /api/chat` handler (lines 55-142 of index.js).  Validation,
session lookup or creation (a fresh session starts from the system
instruction and is stored in the registry before any model call), the
initial `sendMessage`, the reasoning loop, fence-stripping of the final
text, and the catch-all 500.  The registry binding always ends up holding
the post-run history: the stored JS chat object is mutated in place by every
`sendMessage`, so partial progress persists even when a later step throws. -/
def handleChat (gem : Gemini) (svc : ToolService) (fuel : Nat)
    (sessions : Registry) (req : ChatHttpRequest) : ChatResult :=
  if jsTruthy req.message && jsTruthy req.sessionId then
    let msg := req.message.getD ""
    let sid := req.sessionId.getD ""
    let ctx := sessionBase sessions sid ++ [ChatEntry.user msg]
    match gem ctx with
    | none =>
      ⟨some ⟨500, chatErrorBody⟩, setSession sessions sid ctx, [], 1, [], none, some ctx⟩
    | some r0 =>
      let run := chatLoop gem svc sid fuel r0 (ctx ++ [ChatEntry.model r0])
      let resp : Option HttpResponse :=
        match run.outcome with
        | .reply t => some ⟨200, .obj [("reply", .str (cleanReply t))]⟩
        | .toolFailure => some ⟨500, chatErrorBody⟩
        | .modelFailure => some ⟨500, chatErrorBody⟩
        | .outOfFuel => none
      ⟨resp, setSession sessions sid run.history, run.trace, run.modelCalls + 1,
       run.steps, run.finalResponse, some ctx⟩
  else
    ⟨some ⟨400, chatBadRequestBody⟩, sessions, [], 0, [], none, none⟩

/-- The two fixed tool names of the dashboard endpoint (line 161). -/
def dashToolNames : List String := ["fetch_net_worth", "fetch_credit_report"]

/-- The relay requests issued by the dashboard endpoint for a session. -/
def dashRequests (sid : String) : List ToolRequest :=
  dashToolNames.map (fun n => mkToolRequest sid n)

/-- The 400 body of the dashboard endpoint (line 156). -/
def dashBadRequestBody : JsValue :=
  .obj [("error", .str "sessionId is required.")]

/-- The generic 500 body of the dashboard endpoint (line 200). -/
def dashErrorBody : JsValue :=
  .obj [("error", .str "Failed to fetch dashboard data.")]

/-- `toolResponse.data.result.content[0].text` followed by a string check:
the navigation throws when an intermediate value is `undefined` or `null`
and returns the JSON-encoded string otherwise (lines 175-176).  Non-string
`text` values are handled by `jsJsonParseV` at the call site. -/
def extractToolText (body : JsValue) : Option (Option JsValue) := do
  let r ← jsGet (some body) "result"
  let c ← jsGet r "content"
  let e ← jsIndex c 0
  jsGet e "text"

/-- `item.netWorthAttribute.startsWith("LIABILITY_TYPE")` evaluated on every
element of `assetValues` by `.filter` (lines 180-181); throws (TypeError) as
soon as some element's `netWorthAttribute` is not a string. -/
def jsFilterItems : List JsValue → Option (List JsValue)
  | [] => some []
  | item :: rest => do
    let attrV ← jsGet (some item) "netWorthAttribute"
    let attr ← asJsString attrV
    let tail ← jsFilterItems rest
    if jsStartsWith attr "LIABILITY_TYPE" then some tail else some (item :: tail)

/-- The prefix stripped from asset type tags (line 183). -/
def assetTag : String := "ASSET_TYPE_"

/-- `attr.replace("ASSET_TYPE_", "").replace("_", " ")` (line 183): each
`replace` rewrites only the first occurrence of its pattern. -/
def assetLabel (attr : String) : String :=
  String.mk (jsReplaceOnce ['_'] [' '] (jsReplaceOnce assetTag.data [] attr.data))

/-- The `.map` body of lines 182-185: one output asset object per kept
entry; `asset.value.units` may be absent (`parseInt(undefined)` is `NaN`,
which serializes as `null`), but `asset.value` itself must be readable. -/
def assetEntry (item : JsValue) : Option JsValue := do
  let attrV ← jsGet (some item) "netWorthAttribute"
  let attr ← asJsString attrV
  let valueF ← jsGet (some item) "value"
  let unitsV ← jsGet valueF "units"
  some (.obj [("type", .str (assetLabel attr)), ("value", intToJson (jsParseIntV unitsV))])

/-- The `.map` of line 182 with a callback that can throw: apply `assetEntry`
to each element in order, aborting at the first error. -/
def optionMapM (f : JsValue → Option JsValue) : List JsValue → Option (List JsValue)
  | [] => some []
  | x :: xs =>
    match f x, optionMapM f xs with
    | some y, some ys => some (y :: ys)
    | _, _ => none

/-- Lines 179-185: navigate `netWorthRaw.netWorthResponse`, read the total
units (a `NaN`-tolerant `parseInt`), filter the asset entries and build the
asset objects. -/
def dashNetWorthPart (netWorthRaw : JsValue) : Option (Option Int × List JsValue) := do
  let nwr ← jsGet (some netWorthRaw) "netWorthResponse"
  let tnv ← jsGet nwr "totalNetWorthValue"
  let unitsV ← jsGet tnv "units"
  let avs ← jsGet nwr "assetValues"
  let items ← asJsArray avs
  let kept ← jsFilterItems items
  let assets ← optionMapM assetEntry kept
  some (jsParseIntV unitsV, assets)

/-- Line 187: `creditReportRaw.creditReports[0].creditReportData.score.bureauScore`
through `parseInt`. -/
def dashCreditPart (creditReportRaw : JsValue) : Option (Option Int) := do
  let cr ← jsGet (some creditReportRaw) "creditReports"
  let cr0 ← jsIndex cr 0
  let crd ← jsGet cr0 "creditReportData"
  let score ← jsGet crd "score"
  let bureau ← jsGet score "bureauScore"
  some (jsParseIntV bureau)

/-- The try-block body of the dashboard endpoint after `Promise.all`
(lines 175-194): parse both nested JSON payloads, reshape them, and
assemble the flat summary object.  `none` is any thrown error (caught at
line 198). -/
def dashCompute (datas : List JsValue) : Option JsValue := do
  let t0 ← extractToolText (datas.getD 0 .null)
  let netWorthRaw ← jsJsonParseV t0
  let t1 ← extractToolText (datas.getD 1 .null)
  let creditReportRaw ← jsJsonParseV t1
  let nwPart ← dashNetWorthPart netWorthRaw
  let creditScoreValue ← dashCreditPart creditReportRaw
  some (.obj [("netWorth", intToJson nwPart.1),
              ("assets", .arr nwPart.2),
              ("creditScore", intToJson creditScoreValue)])

/-- Instrumented result of handling one dashboard request. -/
structure DashResult where
  response : HttpResponse
  sessions : Registry
  requests : List ToolRequest

/-- The `GET /api/dashboard` handler (lines 152-202 of index.js): validate
the query parameter, issue the two fixed relay calls in one parallel batch,
reshape, and the catch-all 500.  The session registry is threaded through
untouched: the handler never references `chatSessions`. -/
def handleDashboard (svc : ToolService) (sessions : Registry)
    (sessionId : Option String) : DashResult :=
  if jsTruthy sessionId then
    let sid := sessionId.getD ""
    let reqs := dashRequests sid
    match collectAll svc reqs with
    | none => ⟨⟨500, dashErrorBody⟩, sessions, reqs⟩
    | some datas =>
      match dashCompute datas with
      | some body => ⟨⟨200, body⟩, sessions, reqs⟩
      | none => ⟨⟨500, dashErrorBody⟩, sessions, reqs⟩
  else
    ⟨⟨400, dashBadRequestBody⟩, sessions, []⟩

/-- Canonical wire shape of a successful tool response body: the actual tool
result sits JSON-encoded at `result.content[0].text` (spec 4.4). -/
def mockBody (t : String) : JsValue :=
  .obj [("result", .obj [("content", .arr [.obj [("text", .str t)]])])]

/-- One entry of `netWorthResponse.assetValues` in a well-formed mock
payload: a type tag and the units string of its value. -/
structure NetWorthItem where
  tag : String
  units : String

/-- A well-formed `fetch_net_worth` payload in description form. -/
structure NetWorthDesc where
  totalUnits : String
  items : List NetWorthItem

/-- The JSON value of one asset entry in a well-formed net-worth payload. -/
def itemJson (it : NetWorthItem) : JsValue :=
  .obj [("netWorthAttribute", .str it.tag), ("value", .obj [("units", .str it.units)])]

/-- The JSON value of a well-formed `fetch_net_worth` payload. -/
def netWorthJson (d : NetWorthDesc) : JsValue :=
  .obj [("netWorthResponse", .obj
    [("totalNetWorthValue", .obj [("units", .str d.totalUnits)]),
     ("assetValues", .arr (d.items.map itemJson))])]

/-- A net-worth payload that is well-formed except that the
`totalNetWorthValue.units` leaf is missing. -/
def netWorthJsonNoUnits (d : NetWorthDesc) : JsValue :=
  .obj [("netWorthResponse", .obj
    [("totalNetWorthValue", .obj []),
     ("assetValues", .arr (d.items.map itemJson))])]

/-- The JSON value of a well-formed `fetch_credit_report` payload with the
given bureau score string. -/
def creditJson (bureau : String) : JsValue :=
  .obj [("creditReports", .arr
    [.obj [("creditReportData", .obj [("score", .obj [("bureauScore", .str bureau)])])]])]

/-- Well-formedness of the type tags of a net-worth payload: every entry is
tagged either as an asset or as a liability (as in the mock data files). -/
def wellTagged (d : NetWorthDesc) : Prop :=
  ∀ it ∈ d.items, jsStartsWith it.tag assetTag = true ∨
    jsStartsWith it.tag "LIABILITY_TYPE" = true

/-- Claim-side label: the type tag with the fixed `ASSET_TYPE_` marker
stripped from the front and the first remaining underscore replaced by a
space. -/
def strippedLabel (tag : String) : String :=
  String.mk (jsReplaceOnce ['_'] [' '] (tag.data.drop assetTag.data.length))

/-- The entries of a net-worth payload that survive the liability filter. -/
def keptItems (d : NetWorthDesc) : List NetWorthItem :=
  d.items.filter (fun it => !(jsStartsWith it.tag "LIABILITY_TYPE"))

/-- Claim-side expected asset list of the dashboard summary. -/
def specAssets (d : NetWorthDesc) : List JsValue :=
  (keptItems d).map (fun it =>
    .obj [("type", .str (strippedLabel it.tag)), ("value", intToJson (jsParseInt it.units))])

/-- The `params.name` member of a relay request body, read back from the
wire shape (used to build concrete mock services). -/
def reqToolName (q : ToolRequest) : Option String :=
  match q.body with
  | .obj fs =>
    match lookupLast fs "params" with
    | some (.obj ps) =>
      match lookupLast ps "name" with
      | some (.str n) => some n
      | _ => none
    | _ => none
  | _ => none

/-- A mock tool service answering the two dashboard tools with the given
JSON-encoded payload texts. -/
def mockSvc (nw cr : String) : ToolService := fun q =>
  if reqToolName q == some "fetch_net_worth" then some (mockBody nw)
  else if reqToolName q == some "fetch_credit_report" then some (mockBody cr)
  else none

/-- A tool service that answers every relay call with an empty object (the
chat handler never inspects tool payloads). -/
def svcOk : ToolService := fun _ => some (.obj [])

/-- A tool service whose every call fails. -/
def svcFail : ToolService := fun _ => none

/-- A model oracle that never requests tools and always answers with the
given text. -/
def gemNoTools (txt : String) : Gemini := fun _ => some ⟨[], txt⟩

/-- A model oracle whose every call fails. -/
def gemFail : Gemini := fun _ => none

/-- Whether a history already contains a batch of tool results. -/
def hasFunctionResponses (h : List ChatEntry) : Bool :=
  h.any (fun e =>
    match e with
    | ChatEntry.functionResponses _ => true
    | _ => false)

/-- A model oracle that requests one tool invocation (with non-empty
arguments) on the first turn and then answers with plain text. -/
def gemOnce : Gemini := fun h =>
  if hasFunctionResponses h then some ⟨[], "done"⟩
  else some ⟨[⟨"fetch_net_worth", .obj [("year", .num 2024)]⟩], ""⟩

/-- Description of the concrete well-formed net-worth payload used below. -/
def wNwDesc : NetWorthDesc :=
  ⟨"100", [⟨"ASSET_TYPE_MUTUAL_FUND", "40"⟩,
           ⟨"LIABILITY_TYPE_HOME_LOAN", "99"⟩,
           ⟨"ASSET_TYPE_EPF", "60"⟩]⟩

/-- A concrete well-formed `fetch_net_worth` payload text. -/
def wNwText : String :=
  "\x7b\"netWorthResponse\":\x7b\"totalNetWorthValue\":\x7b\"units\":\"100\"\x7d,\"assetValues\":[\x7b\"netWorthAttribute\":\"ASSET_TYPE_MUTUAL_FUND\",\"value\":\x7b\"units\":\"40\"\x7d\x7d,\x7b\"netWorthAttribute\":\"LIABILITY_TYPE_HOME_LOAN\",\"value\":\x7b\"units\":\"99\"\x7d\x7d,\x7b\"netWorthAttribute\":\"ASSET_TYPE_EPF\",\"value\":\x7b\"units\":\"60\"\x7d\x7d]\x7d\x7d"

/-- A concrete well-formed `fetch_credit_report` payload text. -/
def wCrText : String :=
  "\x7b\"creditReports\":[\x7b\"creditReportData\":\x7b\"score\":\x7b\"bureauScore\":\"746\"\x7d\x7d\x7d]\x7d"

/-- The concrete net-worth payload with the `units` leaf of
`totalNetWorthValue` missing (otherwise well-formed). -/
def wNwNoUnitsText : String :=
  "\x7b\"netWorthResponse\":\x7b\"totalNetWorthValue\":\x7b\x7d,\"assetValues\":[\x7b\"netWorthAttribute\":\"ASSET_TYPE_MUTUAL_FUND\",\"value\":\x7b\"units\":\"40\"\x7d\x7d]\x7d\x7d"

/-- Description matching `wNwNoUnitsText`. -/
def wNwNoUnitsDesc : NetWorthDesc :=
  ⟨"", [⟨"ASSET_TYPE_MUTUAL_FUND", "40"⟩]⟩

/-- Whether a character list contains a triple backtick anywhere. -/
def hasTriple : List Char → Bool
  | [] => false
  | c :: rest => fence.isPrefixOf (c :: rest) || hasTriple rest

/-- The asset list the dashboard code produces for a canonical net-worth
payload: liability-tagged entries removed, labels via `assetLabel`, values
via `parseInt`. -/
def codeAssets (d : NetWorthDesc) : List JsValue :=
  (d.items.filter (fun it => !(jsStartsWith it.tag "LIABILITY_TYPE"))).map
    (fun it => .obj [("type", .str (assetLabel it.tag)),
                     ("value", intToJson (jsParseInt it.units))])

/-- Claim-side reader of a member of a request body object. -/
def bodyMember (b : JsValue) (k : String) : Option JsValue :=
  match b with
  | .obj fs => lookupLast fs k
  | _ => none

/-- The label the spec sentence predicts: the type tag with the fixed marker
stripped from the front and nothing else. -/
def bareStrippedLabel (tag : String) : String :=
  String.mk (tag.data.drop assetTag.data.length)

theorem collectAll_length (svc : ToolService) :
    ∀ qs ds, collectAll svc qs = some ds → ds.length = qs.length := by
  intro qs
  induction qs with
  | nil => intro ds h; simp [collectAll] at h; simp [← h]
  | cons q qs ih =>
    intro ds h
    simp only [collectAll] at h
    cases hq : svc q with
    | none => rw [hq] at h; simp at h
    | some d =>
      rw [hq] at h
      cases hr : collectAll svc qs with
      | none => rw [hr] at h; simp at h
      | some ds' =>
        rw [hr] at h
        simp at h
        subst h
        simp [ih ds' hr]

theorem collectAll_get (svc : ToolService) :
    ∀ qs ds, collectAll svc qs = some ds →
      ∀ i (h : i < qs.length) (h' : i < ds.length),
        svc (qs.get ⟨i, h⟩) = some (ds.get ⟨i, h'⟩) := by
  intro qs
  induction qs with
  | nil => intro ds h i hi; simp at hi
  | cons q qs ih =>
    intro ds h i hi hi'
    simp only [collectAll] at h
    cases hq : svc q with
    | none => rw [hq] at h; simp at h
    | some d =>
      rw [hq] at h
      cases hr : collectAll svc qs with
      | none => rw [hr] at h; simp at h
      | some ds' =>
        rw [hr] at h
        simp at h
        subst h
        cases i with
        | zero => simpa using hq
        | succ j =>
          simp only [List.get_cons_succ]
          exact ih ds' hr j (by simpa using hi) (by simpa using hi')

theorem collectAll_two (svc : ToolService) (a b : ToolRequest) (x y : JsValue)
    (ha : svc a = some x) (hb : svc b = some y) :
    collectAll svc [a, b] = some [x, y] := by
  simp [collectAll, ha, hb]

theorem collectAll_two_inv (svc : ToolService) (a b : ToolRequest) (ds : List JsValue)
    (h : collectAll svc [a, b] = some ds) :
    ∃ x y, svc a = some x ∧ svc b = some y ∧ ds = [x, y] := by
  simp only [collectAll] at h
  cases ha : svc a with
  | none => rw [ha] at h; simp at h
  | some x =>
    rw [ha] at h
    cases hb : svc b with
    | none => rw [hb] at h; simp at h
    | some y =>
      rw [hb] at h
      simp at h
      exact ⟨x, y, rfl, rfl, h.symm⟩

theorem lookupSession_setSession_self :
    ∀ (m : Registry) (k : String) (v : List ChatEntry),
      lookupSession (setSession m k v) k = some v := by
  intro m k v
  induction m with
  | nil => simp [setSession, lookupSession]
  | cons p rest ih =>
    by_cases hp : p.1 = k
    · simp [setSession, lookupSession, hp]
    · simp [setSession, lookupSession, hp, ih]

theorem lookupSession_setSession_ne :
    ∀ (m : Registry) (k k' : String) (v : List ChatEntry), k' ≠ k →
      lookupSession (setSession m k v) k' = lookupSession m k' := by
  intro m k k' v hne
  have hkk : ¬ (k = k') := fun h => hne h.symm
  induction m with
  | nil => simp [setSession, lookupSession, hkk]
  | cons p rest ih =>
    by_cases hp : p.1 = k
    · simp [setSession, lookupSession, hp, hkk]
    · by_cases hq : p.1 = k'
      · simp [setSession, lookupSession, hp, hq, hne]
      · simp [setSession, lookupSession, hp, hq, ih]

theorem lookupSession_setSession_isSome (m : Registry) (k k' : String)
    (v : List ChatEntry) (h : (lookupSession m k').isSome) :
    (lookupSession (setSession m k v) k').isSome := by
  by_cases hk : k' = k
  · subst hk; simp [lookupSession_setSession_self]
  · rw [lookupSession_setSession_ne m k k' v hk]; exact h

theorem chatLoop_no_calls (gem : Gemini) (svc : ToolService) (sid : String)
    (fuel : Nat) (r : ModelResponse) (hist : List ChatEntry)
    (h : r.functionCalls = []) :
    chatLoop gem svc sid fuel r hist = ⟨.reply r.text, some r, [], [], 0, hist⟩ := by
  rw [chatLoop, h]

theorem chatLoop_spec (gem : Gemini) (svc : ToolService) (sid : String) :
    ∀ (fuel : Nat) (r : ModelResponse) (hist : List ChatEntry),
      (∀ st ∈ (chatLoop gem svc sid fuel r hist).steps,
          st.calls ≠ [] ∧
          st.requests = st.calls.map (fun fc => mkToolRequest sid fc.name) ∧
          collectAll svc st.requests = some st.results) ∧
      (∀ q ∈ (chatLoop gem svc sid fuel r hist).trace, ∃ n, q = mkToolRequest sid n) ∧
      (∃ ext, (chatLoop gem svc sid fuel r hist).history = hist ++ ext) ∧
      (∀ t, (chatLoop gem svc sid fuel r hist).outcome = .reply t →
        ∃ fr, (chatLoop gem svc sid fuel r hist).finalResponse = some fr ∧
          fr.functionCalls = [] ∧ fr.text = t) := by
  intro fuel
  induction fuel with
  | zero =>
    intro r hist
    cases hc : r.functionCalls with
    | nil =>
      rw [chatLoop, hc]
      refine ⟨by simp, by simp, ⟨[], by simp⟩, ?_⟩
      intro t ht
      simp only [ChatOutcome.reply.injEq] at ht
      exact ⟨r, rfl, hc, ht⟩
    | cons c cs =>
      rw [chatLoop, hc]
      exact ⟨by simp, by simp, ⟨[], by simp⟩, by simp⟩
  | succ fuel' ih =>
    intro r hist
    cases hc : r.functionCalls with
    | nil =>
      rw [chatLoop, hc]
      refine ⟨by simp, by simp, ⟨[], by simp⟩, ?_⟩
      intro t ht
      simp only [ChatOutcome.reply.injEq] at ht
      exact ⟨r, rfl, hc, ht⟩
    | cons c cs =>
      rw [chatLoop, hc]
      dsimp only
      cases hcol : collectAll svc ((c :: cs).map (fun fc => mkToolRequest sid fc.name)) with
      | none =>
        dsimp only
        refine ⟨by simp, ?_, ⟨[], by simp⟩, by simp⟩
        intro q hq
        simp only [List.mem_map] at hq
        obtain ⟨fc, _, hfc⟩ := hq
        exact ⟨fc.name, hfc.symm⟩
      | some datas =>
        dsimp only
        cases hg : gem (hist ++ [ChatEntry.functionResponses
            (List.zipWith (fun (fc : FunctionCall) (d : JsValue) => (fc.name, d)) (c :: cs) datas)]) with
        | none =>
          dsimp only
          refine ⟨?_, ?_, ⟨_, rfl⟩, by simp⟩
          · intro st hst
            simp only [List.mem_singleton] at hst
            subst hst
            exact ⟨by simp, rfl, hcol⟩
          · intro q hq
            simp only [List.mem_map] at hq
            obtain ⟨fc, _, hfc⟩ := hq
            exact ⟨fc.name, hfc.symm⟩
        | some r' =>
          dsimp only
          obtain ⟨ihSteps, ihTrace, ⟨ext, ihHist⟩, ihReply⟩ :=
            ih r' ((hist ++ [ChatEntry.functionResponses
              (List.zipWith (fun (fc : FunctionCall) (d : JsValue) => (fc.name, d)) (c :: cs) datas)])
              ++ [ChatEntry.model r'])
          refine ⟨?_, ?_, ?_, ?_⟩
          · intro st hst
            simp only [List.mem_cons] at hst
            rcases hst with hst | hst
            · subst hst
              exact ⟨by simp, rfl, hcol⟩
            · exact ihSteps st hst
          · intro q hq
            simp only [List.mem_append] at hq
            rcases hq with hq | hq
            · simp only [List.mem_map] at hq
              obtain ⟨fc, _, hfc⟩ := hq
              exact ⟨fc.name, hfc.symm⟩
            · exact ihTrace q hq
          · refine ⟨[ChatEntry.functionResponses
              (List.zipWith (fun (fc : FunctionCall) (d : JsValue) => (fc.name, d)) (c :: cs) datas)]
              ++ [ChatEntry.model r'] ++ ext, ?_⟩
            rw [ihHist]
            simp [List.append_assoc]
          · intro t ht
            exact ihReply t ht

theorem fence_eq : fence = [btChar, btChar, btChar] := by decide

theorem fenceJson_eq :
    fenceJson = [btChar, btChar, btChar, 'j', 's', 'o', 'n', '\n'] := by decide

theorem stripFencesGo_head1 :
    ∀ n l t, stripFencesGo n l = btChar :: t → ∃ u, l = btChar :: u := by
  intro n
  induction n with
  | zero => intro l t h; simp [stripFencesGo] at h
  | succ n ih =>
    intro l t h
    cases l with
    | nil => simp [stripFencesGo] at h
    | cons c cs =>
      rw [stripFencesGo] at h
      by_cases h1 : fenceJson.isPrefixOf (c :: cs) = true
      · obtain ⟨u, hu⟩ := List.isPrefixOf_iff_prefix.mp h1
        rw [fenceJson_eq] at hu
        exact ⟨_, hu.symm⟩
      · rw [if_neg h1] at h
        by_cases h2 : fence.isPrefixOf (c :: cs) = true
        · obtain ⟨u, hu⟩ := List.isPrefixOf_iff_prefix.mp h2
          rw [fence_eq] at hu
          exact ⟨_, hu.symm⟩
        · rw [if_neg h2] at h
          obtain ⟨hcbt, -⟩ := List.cons.inj h
          exact ⟨cs, by rw [hcbt]⟩

theorem stripFencesGo_head2 :
    ∀ n l t, stripFencesGo n l = btChar :: btChar :: t →
      ∃ u, l = btChar :: btChar :: u := by
  intro n
  induction n with
  | zero => intro l t h; simp [stripFencesGo] at h
  | succ n ih =>
    intro l t h
    cases l with
    | nil => simp [stripFencesGo] at h
    | cons c cs =>
      rw [stripFencesGo] at h
      by_cases h1 : fenceJson.isPrefixOf (c :: cs) = true
      · obtain ⟨u, hu⟩ := List.isPrefixOf_iff_prefix.mp h1
        rw [fenceJson_eq] at hu
        exact ⟨_, hu.symm⟩
      · rw [if_neg h1] at h
        by_cases h2 : fence.isPrefixOf (c :: cs) = true
        · obtain ⟨u, hu⟩ := List.isPrefixOf_iff_prefix.mp h2
          rw [fence_eq] at hu
          exact ⟨_, hu.symm⟩
        · rw [if_neg h2] at h
          obtain ⟨hcbt, htail⟩ := List.cons.inj h
          obtain ⟨u, hcs⟩ := stripFencesGo_head1 n cs _ htail
          exact ⟨u, by rw [hcbt, hcs]⟩

theorem stripFencesGo_no_fence :
    ∀ n l t, stripFencesGo n l ≠ btChar :: btChar :: btChar :: t := by
  intro n
  induction n with
  | zero => intro l t h; simp [stripFencesGo] at h
  | succ n ih =>
    intro l t h
    cases l with
    | nil => simp [stripFencesGo] at h
    | cons c cs =>
      rw [stripFencesGo] at h
      by_cases h1 : fenceJson.isPrefixOf (c :: cs) = true
      · rw [if_pos h1] at h; exact ih _ _ h
      · rw [if_neg h1] at h
        by_cases h2 : fence.isPrefixOf (c :: cs) = true
        · rw [if_pos h2] at h; exact ih _ _ h
        · rw [if_neg h2] at h
          obtain ⟨hcbt, htail⟩ := List.cons.inj h
          obtain ⟨u, hcs⟩ := stripFencesGo_head2 n cs _ htail
          apply h2
          apply List.isPrefixOf_iff_prefix.mpr
          refine ⟨u, ?_⟩
          rw [fence_eq, hcbt, hcs]
          rfl

theorem stripFencesGo_no_fence_bool (n : Nat) (l : List Char) :
    fence.isPrefixOf (stripFencesGo n l) = false := by
  by_contra hcon
  rw [Bool.not_eq_false] at hcon
  obtain ⟨u, hu⟩ := List.isPrefixOf_iff_prefix.mp hcon
  rw [fence_eq] at hu
  exact stripFencesGo_no_fence n l u hu.symm

theorem stripFencesGo_hasTriple :
    ∀ n l, hasTriple (stripFencesGo n l) = false := by
  intro n
  induction n with
  | zero => intro l; simp [stripFencesGo, hasTriple]
  | succ n ih =>
    intro l
    cases l with
    | nil => simp [stripFencesGo, hasTriple]
    | cons c cs =>
      rw [stripFencesGo]
      by_cases h1 : fenceJson.isPrefixOf (c :: cs) = true
      · rw [if_pos h1]; exact ih _
      · rw [if_neg h1]
        by_cases h2 : fence.isPrefixOf (c :: cs) = true
        · rw [if_pos h2]; exact ih _
        · rw [if_neg h2]
          rw [hasTriple]
          have hnf : fence.isPrefixOf (c :: stripFencesGo n cs) = false := by
            have hstep : stripFencesGo (n + 1) (c :: cs) = c :: stripFencesGo n cs := by
              rw [stripFencesGo, if_neg h1, if_neg h2]
            rw [← hstep]
            exact stripFencesGo_no_fence_bool (n + 1) (c :: cs)
          rw [hnf, ih cs]
          rfl

theorem hasTriple_append_left :
    ∀ (x t : List Char), hasTriple x = true → hasTriple (x ++ t) = true := by
  intro x
  induction x with
  | nil => intro t h; simp [hasTriple] at h
  | cons c rest ih =>
    intro t h
    rw [hasTriple] at h
    rw [List.cons_append, hasTriple]
    rcases Bool.or_eq_true_iff.mp h with h1 | h1
    · obtain ⟨u, hu⟩ := List.isPrefixOf_iff_prefix.mp h1
      apply Bool.or_eq_true_iff.mpr
      left
      apply List.isPrefixOf_iff_prefix.mpr
      refine ⟨u ++ t, ?_⟩
      rw [← List.append_assoc, hu]
      rfl
    · apply Bool.or_eq_true_iff.mpr
      right
      exact ih t h1

theorem hasTriple_append_right :
    ∀ (x t : List Char), hasTriple t = true → hasTriple (x ++ t) = true := by
  intro x
  induction x with
  | nil => intro t h; simpa using h
  | cons c rest ih =>
    intro t h
    rw [List.cons_append, hasTriple]
    apply Bool.or_eq_true_iff.mpr
    right
    exact ih t h

theorem hasTriple_false_within (x m : List Char) (hinf : x <:+: m)
    (hm : hasTriple m = false) : hasTriple x = false := by
  by_contra hcon
  rw [Bool.not_eq_false] at hcon
  obtain ⟨pre, suf, hsplit⟩ := hinf
  have hm' : hasTriple m = true := by
    rw [← hsplit, List.append_assoc]
    exact hasTriple_append_right pre (x ++ suf) (hasTriple_append_left x suf hcon)
  rw [hm'] at hm
  cases hm

theorem jsTrim_isPrefix (l : List Char) : jsTrim l <+: l.dropWhile jsWs := by
  apply List.reverse_suffix.mp
  have hrev : (jsTrim l).reverse = (l.dropWhile jsWs).reverse.dropWhile jsWs := by
    simp [jsTrim]
  rw [hrev]
  exact List.dropWhile_suffix jsWs

theorem jsTrim_within (l : List Char) : jsTrim l <:+: l := by
  apply List.infix_iff_prefix_suffix.mpr
  exact ⟨l.dropWhile jsWs, jsTrim_isPrefix l, List.dropWhile_suffix jsWs⟩

theorem head_dropWhile_not :
    ∀ (p : Char → Bool) (l : List Char) (c : Char),
      (l.dropWhile p).head? = some c → p c = false := by
  intro p l
  induction l with
  | nil => intro c h; simp [List.dropWhile] at h
  | cons a rest ih =>
    intro c h
    rw [List.dropWhile] at h
    split at h
    · exact ih c h
    · simp at h
      rename_i heq
      rw [← h]
      exact heq

theorem cleanReply_no_triple (s : String) :
    hasTriple (cleanReply s).data = false := by
  show hasTriple (jsTrim (stripFences s.data)) = false
  apply hasTriple_false_within _ _ (jsTrim_within _)
  exact stripFencesGo_hasTriple _ _

theorem cleanReply_head_not_ws (s : String) (c : Char)
    (h : (cleanReply s).data.head? = some c) : jsWs c = false := by
  obtain ⟨t, ht⟩ := jsTrim_isPrefix (stripFences s.data)
  apply head_dropWhile_not jsWs (stripFences s.data) c
  rw [← ht]
  cases hcr : jsTrim (stripFences s.data) with
  | nil =>
    have : (cleanReply s).data = [] := hcr
    rw [this] at h
    simp at h
  | cons d ds =>
    have hh : (d :: ds).head? = some c := by
      have : (cleanReply s).data = d :: ds := hcr
      rw [this] at h
      exact h
    simp at hh
    rw [List.cons_append]
    simp [hh]

theorem cleanReply_getLast_not_ws (s : String) (c : Char)
    (h : (cleanReply s).data.getLast? = some c) : jsWs c = false := by
  have hform : (cleanReply s).data =
      (((stripFences s.data).dropWhile jsWs).reverse.dropWhile jsWs).reverse := rfl
  rw [hform, List.getLast?_reverse] at h
  exact head_dropWhile_not jsWs ((stripFences s.data).dropWhile jsWs).reverse c h

theorem extractToolText_mockBody (t : String) :
    extractToolText (mockBody t) = some (some (.str t)) := by
  simp [extractToolText, mockBody, jsGet, jsIndex, lookupLast]

theorem jsFilterItems_itemJson (items : List NetWorthItem) :
    jsFilterItems (items.map itemJson) =
      some ((items.filter (fun it => !(jsStartsWith it.tag "LIABILITY_TYPE"))).map itemJson) := by
  induction items with
  | nil => simp [jsFilterItems]
  | cons it rest ih =>
    by_cases hlia : jsStartsWith it.tag "LIABILITY_TYPE" = true
    · simp [jsFilterItems, itemJson, jsGet, lookupLast, asJsString, ih, hlia, List.filter]
    · simp only [Bool.not_eq_true] at hlia
      simp [jsFilterItems, itemJson, jsGet, lookupLast, asJsString, ih, hlia, List.filter]

theorem mapM_assetEntry (items : List NetWorthItem) :
    optionMapM assetEntry (items.map itemJson) =
      some (items.map (fun it =>
        JsValue.obj [("type", .str (assetLabel it.tag)),
                     ("value", intToJson (jsParseInt it.units))])) := by
  induction items with
  | nil => simp [optionMapM]
  | cons it rest ih =>
    simp [optionMapM, assetEntry, itemJson, jsGet, lookupLast, asJsString, jsParseIntV, ih]

theorem dashNetWorthPart_canonical (d : NetWorthDesc) :
    dashNetWorthPart (netWorthJson d) =
      some (jsParseInt d.totalUnits, codeAssets d) := by
  simp [dashNetWorthPart, netWorthJson, jsGet, lookupLast, asJsArray, jsParseIntV,
    jsFilterItems_itemJson, mapM_assetEntry, codeAssets]

theorem dashNetWorthPart_noUnits (d : NetWorthDesc) :
    dashNetWorthPart (netWorthJsonNoUnits d) = some (none, codeAssets d) := by
  simp [dashNetWorthPart, netWorthJsonNoUnits, jsGet, lookupLast, asJsArray, jsParseIntV,
    jsFilterItems_itemJson, mapM_assetEntry, codeAssets]

theorem dashCreditPart_canonical (b : String) :
    dashCreditPart (creditJson b) = some (jsParseInt b) := by
  simp [dashCreditPart, creditJson, jsGet, jsIndex, lookupLast, jsParseIntV]

theorem dashCompute_canonical (d : NetWorthDesc) (b : String) (nwT crT : String)
    (hnw : jsonParse nwT = some (netWorthJson d))
    (hcr : jsonParse crT = some (creditJson b)) :
    dashCompute [mockBody nwT, mockBody crT] =
      some (.obj [("netWorth", intToJson (jsParseInt d.totalUnits)),
                  ("assets", .arr (codeAssets d)),
                  ("creditScore", intToJson (jsParseInt b))]) := by
  simp [dashCompute, extractToolText_mockBody, jsJsonParseV, hnw, hcr,
    dashNetWorthPart_canonical, dashCreditPart_canonical]

theorem dashCompute_noUnits (d : NetWorthDesc) (b : String) (nwT crT : String)
    (hnw : jsonParse nwT = some (netWorthJsonNoUnits d))
    (hcr : jsonParse crT = some (creditJson b)) :
    dashCompute [mockBody nwT, mockBody crT] =
      some (.obj [("netWorth", .null),
                  ("assets", .arr (codeAssets d)),
                  ("creditScore", intToJson (jsParseInt b))]) := by
  simp [dashCompute, extractToolText_mockBody, jsJsonParseV, hnw, hcr,
    dashNetWorthPart_noUnits, dashCreditPart_canonical, intToJson]

theorem jsReplaceOnce_of_isPrefixOf (pat rep l : List Char)
    (h : pat.isPrefixOf l = true) :
    jsReplaceOnce pat rep l = rep ++ l.drop pat.length := by
  cases l with
  | nil =>
    rw [jsReplaceOnce, if_pos h]
    simp
  | cons c cs =>
    rw [jsReplaceOnce, if_pos h]

theorem assetLabel_eq_strippedLabel (tag : String)
    (h : jsStartsWith tag assetTag = true) :
    assetLabel tag = strippedLabel tag := by
  unfold assetLabel strippedLabel
  rw [jsReplaceOnce_of_isPrefixOf assetTag.data [] tag.data h]
  rw [List.nil_append]

theorem codeAssets_eq_specAssets (d : NetWorthDesc) (h : wellTagged d) :
    codeAssets d = specAssets d := by
  unfold codeAssets specAssets keptItems
  apply List.map_congr_left
  intro it hit
  rw [List.mem_filter] at hit
  obtain ⟨hmem, hpred⟩ := hit
  rcases h it hmem with hast | hlia
  · rw [assetLabel_eq_strippedLabel it.tag hast]
  · rw [hlia] at hpred
    cases hpred

/-- C9: the dashboard endpoint never reads or modifies the session registry:
for every dashboard request the session map after handling is identical to
the map before, whether the request fails validation, fails upstream, fails
parsing, or succeeds. -/
theorem dashboard_frame_sessions (svc : ToolService) (sessions : Registry)
    (q : Option String) : (handleDashboard svc sessions q).sessions = sessions := by
  by_cases h : jsTruthy q = true
  · simp only [handleDashboard, h, if_true]
    split
    · rfl
    · split <;> rfl
  · simp only [handleDashboard, h]
    rfl

/-- C6: a chat request with `message` or `sessionId` absent gets a 400 with
an error body and triggers no model call and no relay call; a dashboard
request with the `sessionId` query parameter absent gets a 400 with an error
body. -/
theorem missing_params_400 :
    (∀ (gem : Gemini) (svc : ToolService) (fuel : Nat) (sessions : Registry)
        (req : ChatHttpRequest), req.message = none ∨ req.sessionId = none →
      (handleChat gem svc fuel sessions req).response = some ⟨400, chatBadRequestBody⟩ ∧
      (handleChat gem svc fuel sessions req).modelCalls = 0 ∧
      (handleChat gem svc fuel sessions req).trace = []) ∧
    (∀ (svc : ToolService) (sessions : Registry),
      (handleDashboard svc sessions none).response = ⟨400, dashBadRequestBody⟩) := by
  constructor
  · intro gem svc fuel sessions req h
    have hcond : (jsTruthy req.message && jsTruthy req.sessionId) = false := by
      rcases h with h | h <;> rw [h] <;> simp [jsTruthy]
    simp only [handleChat, hcond]
    exact ⟨rfl, rfl, rfl⟩
  · intro svc sessions
    simp only [handleDashboard, jsTruthy]
    rfl

/-- C6 witness: a concrete chat request with no message and a concrete
dashboard request with no sessionId. -/
theorem missing_params_400_witness :
    ((handleChat (gemNoTools "x") svcOk 1 [] ⟨none, some "s1"⟩).response =
        some ⟨400, chatBadRequestBody⟩ ∧
      (handleChat (gemNoTools "x") svcOk 1 [] ⟨none, some "s1"⟩).modelCalls = 0 ∧
      (handleChat (gemNoTools "x") svcOk 1 [] ⟨none, some "s1"⟩).trace = []) ∧
    (handleDashboard svcOk [] none).response = ⟨400, dashBadRequestBody⟩ :=
  ⟨missing_params_400.1 (gemNoTools "x") svcOk 1 [] ⟨none, some "s1"⟩ (Or.inl rfl),
   missing_params_400.2 svcOk []⟩

/-- C3: when the first model response requests no tool invocations, the loop
ends after exactly one model call, no relay call is made, and the endpoint
returns that response's text unchanged except for stripping the markdown
code-fence artifacts. -/
theorem chat_single_turn (gem : Gemini) (svc : ToolService) (fuel : Nat)
    (sessions : Registry) (req : ChatHttpRequest) (msg sid : String)
    (r0 : ModelResponse)
    (hm : req.message = some msg) (hs : req.sessionId = some sid)
    (hmt : jsTruthy req.message = true) (hst : jsTruthy req.sessionId = true)
    (hg : gem (sessionBase sessions sid ++ [ChatEntry.user msg]) = some r0)
    (hr0 : r0.functionCalls = []) :
    (handleChat gem svc fuel sessions req).response =
      some ⟨200, .obj [("reply", .str (cleanReply r0.text))]⟩ ∧
    (handleChat gem svc fuel sessions req).modelCalls = 1 ∧
    (handleChat gem svc fuel sessions req).trace = [] := by
  have hcond : (jsTruthy (some msg) && jsTruthy (some sid)) = true := by
    rw [← hm, ← hs, hmt, hst]; rfl
  simp only [handleChat, hm, hs, hcond, Option.getD_some]
  rw [hg]
  dsimp only
  rw [chatLoop_no_calls gem svc sid fuel r0 _ hr0]
  exact ⟨rfl, rfl, rfl⟩

/-- C3 witness: a concrete one-turn conversation. -/
theorem chat_single_turn_witness :
    (handleChat (gemNoTools "hello") svcOk 1 [] ⟨some "hi", some "s1"⟩).response =
      some ⟨200, .obj [("reply", .str (cleanReply "hello"))]⟩ ∧
    (handleChat (gemNoTools "hello") svcOk 1 [] ⟨some "hi", some "s1"⟩).modelCalls = 1 ∧
    (handleChat (gemNoTools "hello") svcOk 1 [] ⟨some "hi", some "s1"⟩).trace = [] :=
  chat_single_turn (gemNoTools "hello") svcOk 1 [] ⟨some "hi", some "s1"⟩ "hi" "s1"
    ⟨[], "hello"⟩ rfl rfl rfl rfl rfl rfl

/-- C8: when a chat request creates a session entry for a fresh sessionId
and a later step fails with the 500 error, the new entry is still in the
registry afterwards: session creation is not rolled back, so the registry
changes even for failing requests. -/
theorem chat_failure_keeps_session (gem : Gemini) (svc : ToolService) (fuel : Nat)
    (sessions : Registry) (req : ChatHttpRequest) (msg sid : String)
    (hm : req.message = some msg) (hs : req.sessionId = some sid)
    (hmt : jsTruthy req.message = true) (hst : jsTruthy req.sessionId = true)
    (hfresh : lookupSession sessions sid = none)
    (_hfail : ∃ resp, (handleChat gem svc fuel sessions req).response = some resp ∧
      resp.status = 500) :
    (lookupSession (handleChat gem svc fuel sessions req).sessions sid).isSome = true ∧
    (handleChat gem svc fuel sessions req).sessions ≠ sessions := by
  have hcond : (jsTruthy (some msg) && jsTruthy (some sid)) = true := by
    rw [← hm, ← hs, hmt, hst]; rfl
  have hsome : (lookupSession (handleChat gem svc fuel sessions req).sessions sid).isSome = true := by
    simp only [handleChat, hm, hs, hcond, Option.getD_some]
    cases hg : gem (sessionBase sessions sid ++ [ChatEntry.user msg]) with
    | none => simp [lookupSession_setSession_self]
    | some r0 => simp [lookupSession_setSession_self]
  refine ⟨hsome, ?_⟩
  intro heq
  rw [heq, hfresh] at hsome
  cases hsome

/-- C8 witness: a fresh session whose model call fails. -/
theorem chat_failure_keeps_session_witness :
    (lookupSession (handleChat gemFail svcOk 1 [] ⟨some "hi", some "s1"⟩).sessions "s1").isSome = true ∧
    (handleChat gemFail svcOk 1 [] ⟨some "hi", some "s1"⟩).sessions ≠ ([] : Registry) :=
  chat_failure_keeps_session gemFail svcOk 1 [] ⟨some "hi", some "s1"⟩ "hi" "s1"
    rfl rfl rfl rfl rfl ⟨⟨500, chatErrorBody⟩, rfl, rfl⟩

/-- C5: the first chat request for a sessionId creates a registry entry; a
subsequent request with the same sessionId reuses the stored state as the
model context (so it includes the earlier exchange, which a successful
request records in the stored history: the user message and a model reply);
and no request ever removes a registry entry. -/
theorem chat_session_registry (gem : Gemini) (svc : ToolService) (fuel : Nat)
    (sessions : Registry) (req : ChatHttpRequest) (msg sid : String)
    (hm : req.message = some msg) (hs : req.sessionId = some sid)
    (hmt : jsTruthy req.message = true) (hst : jsTruthy req.sessionId = true) :
    (lookupSession sessions sid = none →
      (lookupSession (handleChat gem svc fuel sessions req).sessions sid).isSome = true) ∧
    (∀ h0, lookupSession sessions sid = some h0 →
      (handleChat gem svc fuel sessions req).initialContext =
        some (h0 ++ [ChatEntry.user msg])) ∧
    (∀ b, (handleChat gem svc fuel sessions req).response = some ⟨200, b⟩ →
      ∃ h1, lookupSession (handleChat gem svc fuel sessions req).sessions sid = some h1 ∧
        ChatEntry.user msg ∈ h1 ∧ ∃ mr, ChatEntry.model mr ∈ h1) ∧
    (∀ k, (lookupSession sessions k).isSome = true →
      (lookupSession (handleChat gem svc fuel sessions req).sessions k).isSome = true) := by
  have hcond : (jsTruthy (some msg) && jsTruthy (some sid)) = true := by
    rw [← hm, ← hs, hmt, hst]; rfl
  refine ⟨?_, ?_, ?_, ?_⟩
  · intro hfresh
    simp only [handleChat, hm, hs, hcond, Option.getD_some]
    cases hg : gem (sessionBase sessions sid ++ [ChatEntry.user msg]) with
    | none => simp [lookupSession_setSession_self]
    | some r0 => simp [lookupSession_setSession_self]
  · intro h0 hlook
    simp only [handleChat, hm, hs, hcond, Option.getD_some]
    cases hg : gem (sessionBase sessions sid ++ [ChatEntry.user msg]) with
    | none =>
      rw [sessionBase, hlook]
      simp
    | some r0 =>
      rw [sessionBase, hlook]
      simp
  · intro b hb
    rw [handleChat] at hb ⊢
    simp only [hm, hs, hcond, Option.getD_some] at hb ⊢
    cases hg : gem (sessionBase sessions sid ++ [ChatEntry.user msg]) with
    | none =>
      rw [hg] at hb
      simp at hb
    | some r0 =>
      rw [hg] at hb
      dsimp only at hb ⊢
      cases houtc : (chatLoop gem svc sid fuel r0
          (sessionBase sessions sid ++ [ChatEntry.user msg] ++ [ChatEntry.model r0])).outcome with
      | reply t =>
        obtain ⟨-, -, ⟨ext, hhist⟩, -⟩ := chatLoop_spec gem svc sid fuel r0
          (sessionBase sessions sid ++ [ChatEntry.user msg] ++ [ChatEntry.model r0])
        refine ⟨_, lookupSession_setSession_self sessions sid _, ?_, r0, ?_⟩
        · rw [hhist]
          simp
        · rw [hhist]
          simp
      | toolFailure => rw [houtc] at hb; simp at hb
      | modelFailure => rw [houtc] at hb; simp at hb
      | outOfFuel => rw [houtc] at hb; simp at hb
  · intro k hk
    simp only [handleChat, hm, hs, hcond, Option.getD_some]
    cases hg : gem (sessionBase sessions sid ++ [ChatEntry.user msg]) with
    | none =>
      dsimp only
      exact lookupSession_setSession_isSome sessions sid k _ hk
    | some r0 =>
      dsimp only
      exact lookupSession_setSession_isSome sessions sid k _ hk

/-- C5 witness: two sequential calls on a fresh registry with the same
session identifier. -/
theorem chat_session_registry_witness :
    ((lookupSession ([] : Registry) "s1" = none →
      (lookupSession (handleChat (gemNoTools "a") svcOk 1 [] ⟨some "m1", some "s1"⟩).sessions "s1").isSome = true)) ∧
    (∀ h0, lookupSession
        (handleChat (gemNoTools "a") svcOk 1 [] ⟨some "m1", some "s1"⟩).sessions "s1" = some h0 →
      (handleChat (gemNoTools "b") svcOk 1
          (handleChat (gemNoTools "a") svcOk 1 [] ⟨some "m1", some "s1"⟩).sessions
          ⟨some "m2", some "s1"⟩).initialContext = some (h0 ++ [ChatEntry.user "m2"])) := by
  constructor
  · exact (chat_session_registry (gemNoTools "a") svcOk 1 [] ⟨some "m1", some "s1"⟩
      "m1" "s1" rfl rfl rfl rfl).1
  · exact (chat_session_registry (gemNoTools "b") svcOk 1
      (handleChat (gemNoTools "a") svcOk 1 [] ⟨some "m1", some "s1"⟩).sessions
      ⟨some "m2", some "s1"⟩ "m2" "s1" rfl rfl rfl rfl).2.1

/-- C10: every reply the chat endpoint returns is the final model text after
one global left-to-right pass removing json fence openers and remaining
triple backticks, then trimmed: it contains no triple backtick anywhere and
has neither leading nor trailing whitespace. -/
theorem chat_reply_clean (gem : Gemini) (svc : ToolService) (fuel : Nat)
    (sessions : Registry) (req : ChatHttpRequest) (rep : String)
    (hresp : (handleChat gem svc fuel sessions req).response =
      some ⟨200, .obj [("reply", .str rep)]⟩) :
    (∃ fr, (handleChat gem svc fuel sessions req).finalResponse = some fr ∧
      rep = cleanReply fr.text) ∧
    hasTriple rep.data = false ∧
    (∀ c, rep.data.head? = some c → jsWs c = false) ∧
    (∀ c, rep.data.getLast? = some c → jsWs c = false) := by
  by_cases hcond : (jsTruthy req.message && jsTruthy req.sessionId) = true
  · rw [handleChat] at hresp ⊢
    simp only [hcond, if_true] at hresp ⊢
    cases hg : gem (sessionBase sessions (req.sessionId.getD "") ++
        [ChatEntry.user (req.message.getD "")]) with
    | none =>
      rw [hg] at hresp
      simp at hresp
    | some r0 =>
      rw [hg] at hresp
      dsimp only at hresp ⊢
      cases houtc : (chatLoop gem svc (req.sessionId.getD "") fuel r0
          (sessionBase sessions (req.sessionId.getD "") ++
            [ChatEntry.user (req.message.getD "")] ++ [ChatEntry.model r0])).outcome with
      | reply t =>
        rw [houtc] at hresp
        simp only [Option.some.injEq] at hresp
        have hrep : rep = cleanReply t := by
          have := congrArg HttpResponse.body hresp
          simp at this
          exact this.symm
        obtain ⟨-, -, -, hreply⟩ := chatLoop_spec gem svc (req.sessionId.getD "") fuel r0
          (sessionBase sessions (req.sessionId.getD "") ++
            [ChatEntry.user (req.message.getD "")] ++ [ChatEntry.model r0])
        obtain ⟨fr, hfr, -, hfrt⟩ := hreply t houtc
        subst hrep
        refine ⟨⟨fr, hfr, by rw [hfrt]⟩, cleanReply_no_triple t, ?_, ?_⟩
        · intro c hc; exact cleanReply_head_not_ws t c hc
        · intro c hc; exact cleanReply_getLast_not_ws t c hc
      | toolFailure => rw [houtc] at hresp; simp at hresp
      | modelFailure => rw [houtc] at hresp; simp at hresp
      | outOfFuel => rw [houtc] at hresp; simp at hresp
  · rw [handleChat] at hresp
    rw [Bool.not_eq_true] at hcond
    rw [hcond] at hresp
    simp at hresp

/-- C10 witness: a model text wrapped in a json fence with trailing
whitespace comes back as the bare inner text. -/
theorem chat_reply_clean_witness :
    (∃ fr, (handleChat (gemNoTools "```json\nhi``` ") svcOk 1 [] ⟨some "m", some "s1"⟩).finalResponse =
        some fr ∧ ("hi" : String) = cleanReply fr.text) ∧
    hasTriple ("hi" : String).data = false ∧
    (∀ c, ("hi" : String).data.head? = some c → jsWs c = false) ∧
    (∀ c, ("hi" : String).data.getLast? = some c → jsWs c = false) :=
  chat_reply_clean (gemNoTools "```json\nhi``` ") svcOk 1 [] ⟨some "m", some "s1"⟩ "hi" rfl

/-- C1: for every chat request, each reasoning step driven by a model
response with N ≥ 1 tool invocations issues exactly N relay calls, one per
invocation in order, every one carrying the Mcp-Session-Id header equal to
the request's sessionId; the step completes only when all N relay calls have
succeeded, and the model then receives exactly those N results; every relay
request of the run carries that same header, and a 200 reply is produced
exactly from a final model response with no tool invocations. -/
theorem chat_tool_loop (gem : Gemini) (svc : ToolService) (fuel : Nat)
    (sessions : Registry) (req : ChatHttpRequest) (msg sid : String)
    (hm : req.message = some msg) (hs : req.sessionId = some sid)
    (hmt : jsTruthy req.message = true) (hst : jsTruthy req.sessionId = true) :
    (∀ st ∈ (handleChat gem svc fuel sessions req).steps,
        st.calls ≠ [] ∧
        st.requests = st.calls.map (fun fc => mkToolRequest sid fc.name) ∧
        st.requests.length = st.calls.length ∧
        (∀ q ∈ st.requests, q.mcpSessionId = sid) ∧
        st.results.length = st.calls.length ∧
        (∀ i (h1 : i < st.requests.length) (h2 : i < st.results.length),
          svc (st.requests.get ⟨i, h1⟩) = some (st.results.get ⟨i, h2⟩))) ∧
    (∀ q ∈ (handleChat gem svc fuel sessions req).trace, q.mcpSessionId = sid) ∧
    (∀ b, (handleChat gem svc fuel sessions req).response = some ⟨200, b⟩ →
      ∃ fr, (handleChat gem svc fuel sessions req).finalResponse = some fr ∧
        fr.functionCalls = []) := by
  have hcond : (jsTruthy (some msg) && jsTruthy (some sid)) = true := by
    rw [← hm, ← hs, hmt, hst]; rfl
  rw [handleChat]
  simp only [hm, hs, hcond, Option.getD_some, if_true]
  cases hg : gem (sessionBase sessions sid ++ [ChatEntry.user msg]) with
  | none =>
    dsimp only
    refine ⟨by simp, by simp, ?_⟩
    intro b hb
    simp at hb
  | some r0 =>
    dsimp only
    obtain ⟨hsteps, htrace, -, hreply⟩ := chatLoop_spec gem svc sid fuel r0
      (sessionBase sessions sid ++ [ChatEntry.user msg] ++ [ChatEntry.model r0])
    refine ⟨?_, ?_, ?_⟩
    · intro st hst'
      obtain ⟨hne, hreq, hcol⟩ := hsteps st hst'
      have hlenreq : st.requests.length = st.calls.length := by
        rw [hreq, List.length_map]
      have hlenres : st.results.length = st.calls.length := by
        rw [← hlenreq]
        exact collectAll_length svc st.requests st.results hcol
      refine ⟨hne, hreq, hlenreq, ?_, hlenres, ?_⟩
      · intro q hq
        rw [hreq] at hq
        simp only [List.mem_map] at hq
        obtain ⟨fc, -, hfc⟩ := hq
        rw [← hfc]
        rfl
      · intro i h1 h2
        exact collectAll_get svc st.requests st.results hcol i h1 h2
    · intro q hq
      obtain ⟨n, hn⟩ := htrace q hq
      rw [hn]
      rfl
    · intro b hb
      cases houtc : (chatLoop gem svc sid fuel r0
          (sessionBase sessions sid ++ [ChatEntry.user msg] ++ [ChatEntry.model r0])).outcome with
      | reply t =>
        obtain ⟨fr, hfr, hfc, -⟩ := hreply t houtc
        exact ⟨fr, hfr, hfc⟩
      | toolFailure => rw [houtc] at hb; simp at hb
      | modelFailure => rw [houtc] at hb; simp at hb
      | outOfFuel => rw [houtc] at hb; simp at hb

/-- C1 witness: a run whose first model response requests one tool. -/
theorem chat_tool_loop_witness :
    (∀ st ∈ (handleChat gemOnce svcOk 2 [] ⟨some "hi", some "s1"⟩).steps,
        st.calls ≠ [] ∧
        st.requests = st.calls.map (fun fc => mkToolRequest "s1" fc.name) ∧
        st.requests.length = st.calls.length ∧
        (∀ q ∈ st.requests, q.mcpSessionId = "s1") ∧
        st.results.length = st.calls.length ∧
        (∀ i (h1 : i < st.requests.length) (h2 : i < st.results.length),
          svcOk (st.requests.get ⟨i, h1⟩) = some (st.results.get ⟨i, h2⟩))) ∧
    (∀ q ∈ (handleChat gemOnce svcOk 2 [] ⟨some "hi", some "s1"⟩).trace,
      q.mcpSessionId = "s1") ∧
    (∀ b, (handleChat gemOnce svcOk 2 [] ⟨some "hi", some "s1"⟩).response = some ⟨200, b⟩ →
      ∃ fr, (handleChat gemOnce svcOk 2 [] ⟨some "hi", some "s1"⟩).finalResponse = some fr ∧
        fr.functionCalls = []) :=
  chat_tool_loop gemOnce svcOk 2 [] ⟨some "hi", some "s1"⟩ "hi" "s1" rfl rfl rfl rfl

/-- C2 counterexample: on a well-formed net-worth payload whose kept asset
is tagged `ASSET_TYPE_MUTUAL_FUND`, the claim predicts the label
`MUTUAL_FUND` (tag with the fixed prefix stripped), but the endpoint
returns `MUTUAL FUND`: the code additionally replaces the first remaining
underscore with a space. -/
theorem dashboard_label_counterexample :
    (handleDashboard (mockSvc wNwText wCrText) [] (some "s1")).response =
      ⟨200, .obj [("netWorth", .num 100),
                  ("assets", .arr [.obj [("type", .str "MUTUAL FUND"), ("value", .num 40)],
                                   .obj [("type", .str "EPF"), ("value", .num 60)]]),
                  ("creditScore", .num 746)]⟩ ∧
    bareStrippedLabel "ASSET_TYPE_MUTUAL_FUND" = "MUTUAL_FUND" ∧
    ("MUTUAL FUND" : String) ≠ "MUTUAL_FUND" :=
  ⟨rfl, rfl, by decide⟩

/-- C2 (amended): given well-formed responses for both fixed tools the
dashboard issues exactly the two relay calls with the fixed names (in one
parallel batch, both carrying the sessionId header) and returns the flat
object in which `assets` excludes every liability-tagged entry, each kept
entry's label is the tag with the fixed prefix stripped and the first
remaining underscore replaced by a space, and `netWorth`, each asset value
and `creditScore` are the integers parsed from the corresponding fields. -/
theorem dashboard_wellformed (svc : ToolService) (sessions : Registry)
    (sid : String) (d : NetWorthDesc) (b : String) (nw cs : Int) (nwT crT : String)
    (hst : jsTruthy (some sid) = true)
    (h0 : svc (mkToolRequest sid "fetch_net_worth") = some (mockBody nwT))
    (h1 : svc (mkToolRequest sid "fetch_credit_report") = some (mockBody crT))
    (hnw : jsonParse nwT = some (netWorthJson d))
    (hcr : jsonParse crT = some (creditJson b))
    (hwell : wellTagged d)
    (hn : jsParseInt d.totalUnits = some nw)
    (hb : jsParseInt b = some cs) :
    (handleDashboard svc sessions (some sid)).requests =
      [mkToolRequest sid "fetch_net_worth", mkToolRequest sid "fetch_credit_report"] ∧
    (handleDashboard svc sessions (some sid)).response =
      ⟨200, .obj [("netWorth", .num nw),
                  ("assets", .arr (specAssets d)),
                  ("creditScore", .num cs)]⟩ := by
  have hreqs : dashRequests sid =
      [mkToolRequest sid "fetch_net_worth", mkToolRequest sid "fetch_credit_report"] := by
    simp [dashRequests, dashToolNames]
  have hcol : collectAll svc (dashRequests sid) = some [mockBody nwT, mockBody crT] := by
    rw [hreqs]
    exact collectAll_two svc _ _ _ _ h0 h1
  have hcomp : dashCompute [mockBody nwT, mockBody crT] =
      some (.obj [("netWorth", .num nw),
                  ("assets", .arr (specAssets d)),
                  ("creditScore", .num cs)]) := by
    rw [dashCompute_canonical d b nwT crT hnw hcr]
    rw [hn, hb, codeAssets_eq_specAssets d hwell]
    rfl
  rw [handleDashboard]
  simp only [hst, if_true, Option.getD_some]
  rw [hcol]
  dsimp only
  rw [hcomp]
  exact ⟨hreqs, rfl⟩

/-- C2 (amended) witness: the concrete well-formed mock payloads. -/
theorem dashboard_wellformed_witness :
    (handleDashboard (mockSvc wNwText wCrText) [] (some "s1")).requests =
      [mkToolRequest "s1" "fetch_net_worth", mkToolRequest "s1" "fetch_credit_report"] ∧
    (handleDashboard (mockSvc wNwText wCrText) [] (some "s1")).response =
      ⟨200, .obj [("netWorth", .num 100),
                  ("assets", .arr (specAssets wNwDesc)),
                  ("creditScore", .num 746)]⟩ :=
  dashboard_wellformed (mockSvc wNwText wCrText) [] "s1" wNwDesc "746" 100 746
    wNwText wCrText rfl rfl rfl rfl rfl (by unfold wellTagged; decide) rfl rfl

/-- C4 counterexample: a dashboard response missing the
`totalNetWorthValue.units` field — a data-shape deviation the claim says is
reported as 500 — yields a 200 with `netWorth: null`: `parseInt(undefined)`
is `NaN` and never throws, and `NaN` serializes as `null`. -/
theorem dashboard_missing_units_counterexample :
    (handleDashboard (mockSvc wNwNoUnitsText wCrText) [] (some "s1")).response =
      ⟨200, .obj [("netWorth", .null),
                  ("assets", .arr [.obj [("type", .str "MUTUAL FUND"), ("value", .num 40)]]),
                  ("creditScore", .num 746)]⟩ ∧
    (handleDashboard (mockSvc wNwNoUnitsText wCrText) [] (some "s1")).response.status ≠ 500 :=
  ⟨rfl, by decide⟩

/-- C4 (amended): after input validation each endpoint funnels every thrown
failure — relay failure anywhere in a parallel batch, model-call failure,
field-navigation failure while parsing — into the one generic 500 body of
that endpoint, with no partial result; the exception is a missing numeric
leaf read by `parseInt` (net-worth units, asset units, bureau score), which
never throws: it flows through as `NaN` and the endpoint returns 200 with
`null` in that field. -/
theorem error_funnel :
    (∀ (gem : Gemini) (svc : ToolService) (fuel : Nat) (sessions : Registry)
        (req : ChatHttpRequest) (msg sid : String),
      req.message = some msg → req.sessionId = some sid →
      jsTruthy req.message = true → jsTruthy req.sessionId = true →
      ∀ resp, (handleChat gem svc fuel sessions req).response = some resp →
        resp.status = 200 ∨ resp = ⟨500, chatErrorBody⟩) ∧
    (∀ (svc : ToolService) (sessions : Registry) (sidOpt : Option String),
      jsTruthy sidOpt = true →
      (handleDashboard svc sessions sidOpt).response.status = 200 ∨
      (handleDashboard svc sessions sidOpt).response = ⟨500, dashErrorBody⟩) ∧
    (∀ (svc : ToolService) (sessions : Registry) (sidOpt : Option String),
      jsTruthy sidOpt = true →
      collectAll svc (dashRequests (sidOpt.getD "")) = none →
      (handleDashboard svc sessions sidOpt).response = ⟨500, dashErrorBody⟩) ∧
    (∀ (svc : ToolService) (sessions : Registry) (sid : String)
        (d : NetWorthDesc) (b : String) (nwT crT : String),
      jsTruthy (some sid) = true →
      svc (mkToolRequest sid "fetch_net_worth") = some (mockBody nwT) →
      svc (mkToolRequest sid "fetch_credit_report") = some (mockBody crT) →
      jsonParse nwT = some (netWorthJsonNoUnits d) →
      jsonParse crT = some (creditJson b) →
      (handleDashboard svc sessions (some sid)).response =
        ⟨200, .obj [("netWorth", .null),
                    ("assets", .arr (codeAssets d)),
                    ("creditScore", intToJson (jsParseInt b))]⟩) := by
  refine ⟨?_, ?_, ?_, ?_⟩
  · intro gem svc fuel sessions req msg sid hm hs hmt hst resp hresp
    have hcond : (jsTruthy (some msg) && jsTruthy (some sid)) = true := by
      rw [← hm, ← hs, hmt, hst]; rfl
    rw [handleChat] at hresp
    simp only [hm, hs, hcond, Option.getD_some, if_true] at hresp
    cases hg : gem (sessionBase sessions sid ++ [ChatEntry.user msg]) with
    | none =>
      rw [hg] at hresp
      dsimp only at hresp
      simp only [Option.some.injEq] at hresp
      right
      exact hresp.symm
    | some r0 =>
      rw [hg] at hresp
      dsimp only at hresp
      cases houtc : (chatLoop gem svc sid fuel r0
          (sessionBase sessions sid ++ [ChatEntry.user msg] ++ [ChatEntry.model r0])).outcome with
      | reply t =>
        rw [houtc] at hresp
        simp only [Option.some.injEq] at hresp
        left
        rw [← hresp]
      | toolFailure =>
        rw [houtc] at hresp
        simp only [Option.some.injEq] at hresp
        right
        exact hresp.symm
      | modelFailure =>
        rw [houtc] at hresp
        simp only [Option.some.injEq] at hresp
        right
        exact hresp.symm
      | outOfFuel =>
        rw [houtc] at hresp
        simp at hresp
  · intro svc sessions sidOpt hst
    rw [handleDashboard]
    simp only [hst, if_true]
    cases collectAll svc (dashRequests (sidOpt.getD "")) with
    | none => right; rfl
    | some datas =>
      dsimp only
      cases dashCompute datas with
      | none => right; rfl
      | some body => left; rfl
  · intro svc sessions sidOpt hst hcol
    rw [handleDashboard]
    simp only [hst, if_true]
    rw [hcol]
  · intro svc sessions sid d b nwT crT hst h0 h1 hnw hcr
    have hcol : collectAll svc (dashRequests sid) = some [mockBody nwT, mockBody crT] := by
      have hreqs : dashRequests sid =
          [mkToolRequest sid "fetch_net_worth", mkToolRequest sid "fetch_credit_report"] := by
        simp [dashRequests, dashToolNames]
      rw [hreqs]
      exact collectAll_two svc _ _ _ _ h0 h1
    rw [handleDashboard]
    simp only [hst, if_true, Option.getD_some]
    rw [hcol]
    dsimp only
    rw [dashCompute_noUnits d b nwT crT hnw hcr]

/-- C4 (amended) witness: a relay batch in which every call fails gives the
dashboard 500 with the generic body; the same registryless setup with the
units leaf removed gives 200 with a null net worth. -/
theorem error_funnel_witness :
    (handleDashboard svcFail [] (some "s1")).response = ⟨500, dashErrorBody⟩ ∧
    (handleDashboard (mockSvc wNwNoUnitsText wCrText) [] (some "s1")).response =
      ⟨200, .obj [("netWorth", .null),
                  ("assets", .arr (codeAssets wNwNoUnitsDesc)),
                  ("creditScore", intToJson (jsParseInt "746"))]⟩ :=
  ⟨error_funnel.2.2.1 svcFail [] (some "s1") rfl rfl,
   error_funnel.2.2.2 (mockSvc wNwNoUnitsText wCrText) [] "s1" wNwNoUnitsDesc "746"
     wNwNoUnitsText wCrText rfl rfl rfl rfl rfl⟩

/-- C7: every relay call from either endpoint posts to the fixed URL a
JSON-RPC-shaped body whose `method` is `tools/call` and whose `params`
holds the tool name and an always-empty `arguments` object (whatever
arguments the model attached to the invocation), carries the session
identifier in the Mcp-Session-Id header; and a successful dashboard request
necessarily read each tool result as the JSON-decoded payload nested at
`result.content[0].text` of the relay response. -/
theorem relay_wire_format :
    (∀ (gem : Gemini) (svc : ToolService) (fuel : Nat) (sessions : Registry)
        (req : ChatHttpRequest) (msg sid : String),
      req.message = some msg → req.sessionId = some sid →
      jsTruthy req.message = true → jsTruthy req.sessionId = true →
      ∀ q ∈ (handleChat gem svc fuel sessions req).trace,
        q.url = goAdkUrl ++ "/mcp/stream" ∧ q.contentType = "application/json" ∧
        q.mcpSessionId = sid ∧
        bodyMember q.body "method" = some (.str "tools/call") ∧
        (∃ n, bodyMember q.body "params" =
          some (.obj [("name", .str n), ("arguments", .obj [])]))) ∧
    (∀ (svc : ToolService) (sessions : Registry) (sidOpt : Option String),
      ∀ q ∈ (handleDashboard svc sessions sidOpt).requests,
        q.url = goAdkUrl ++ "/mcp/stream" ∧ q.contentType = "application/json" ∧
        q.mcpSessionId = sidOpt.getD "" ∧
        bodyMember q.body "method" = some (.str "tools/call") ∧
        (∃ n, bodyMember q.body "params" =
          some (.obj [("name", .str n), ("arguments", .obj [])]))) ∧
    (∀ (svc : ToolService) (sessions : Registry) (sidOpt : Option String) (body : JsValue),
      (handleDashboard svc sessions sidOpt).response = ⟨200, body⟩ →
      ∃ d0 d1 t0 v0 t1 v1,
        svc (mkToolRequest (sidOpt.getD "") "fetch_net_worth") = some d0 ∧
        svc (mkToolRequest (sidOpt.getD "") "fetch_credit_report") = some d1 ∧
        extractToolText d0 = some t0 ∧ jsJsonParseV t0 = some v0 ∧
        extractToolText d1 = some t1 ∧ jsJsonParseV t1 = some v1) := by
  have hbody : ∀ sid n, bodyMember (mkToolRequest sid n).body "method" = some (.str "tools/call") ∧
      bodyMember (mkToolRequest sid n).body "params" =
        some (.obj [("name", .str n), ("arguments", .obj [])]) := by
    intro sid n
    constructor
    · simp [bodyMember, mkToolRequest, mkToolCallBody, lookupLast]
    · simp [bodyMember, mkToolRequest, mkToolCallBody, lookupLast]
  refine ⟨?_, ?_, ?_⟩
  · intro gem svc fuel sessions req msg sid hm hs hmt hst q hq
    have hcond : (jsTruthy (some msg) && jsTruthy (some sid)) = true := by
      rw [← hm, ← hs, hmt, hst]; rfl
    rw [handleChat] at hq
    simp only [hm, hs, hcond, Option.getD_some, if_true] at hq
    cases hg : gem (sessionBase sessions sid ++ [ChatEntry.user msg]) with
    | none =>
      rw [hg] at hq
      simp at hq
    | some r0 =>
      rw [hg] at hq
      dsimp only at hq
      obtain ⟨-, htrace, -, -⟩ := chatLoop_spec gem svc sid fuel r0
        (sessionBase sessions sid ++ [ChatEntry.user msg] ++ [ChatEntry.model r0])
      obtain ⟨n, hn⟩ := htrace q hq
      subst hn
      exact ⟨rfl, rfl, rfl, (hbody sid n).1, n, (hbody sid n).2⟩
  · intro svc sessions sidOpt q hq
    by_cases hst : jsTruthy sidOpt = true
    · rw [handleDashboard] at hq
      simp only [hst, if_true] at hq
      have hq2 : q ∈ dashRequests (sidOpt.getD "") := by
        cases hcol : collectAll svc (dashRequests (sidOpt.getD "")) with
        | none =>
          rw [hcol] at hq
          dsimp only at hq
          exact hq
        | some datas =>
          rw [hcol] at hq
          dsimp only at hq
          cases hcomp : dashCompute datas with
          | none =>
            rw [hcomp] at hq
            dsimp only at hq
            exact hq
          | some b =>
            rw [hcomp] at hq
            dsimp only at hq
            exact hq
      simp only [dashRequests, dashToolNames, List.map_cons, List.map_nil, List.mem_cons,
        List.not_mem_nil, or_false] at hq2
      rcases hq2 with hq2 | hq2 <;> subst hq2
      · exact ⟨rfl, rfl, rfl, (hbody _ _).1, _, (hbody _ _).2⟩
      · exact ⟨rfl, rfl, rfl, (hbody _ _).1, _, (hbody _ _).2⟩
    · rw [handleDashboard] at hq
      rw [Bool.not_eq_true] at hst
      rw [hst] at hq
      simp at hq
  · intro svc sessions sidOpt body hresp
    by_cases hst : jsTruthy sidOpt = true
    · rw [handleDashboard] at hresp
      simp only [hst, if_true] at hresp
      cases hcol : collectAll svc (dashRequests (sidOpt.getD "")) with
      | none =>
        rw [hcol] at hresp
        simp at hresp
      | some datas =>
        rw [hcol] at hresp
        dsimp only at hresp
        cases hcomp : dashCompute datas with
        | none =>
          rw [hcomp] at hresp
          simp at hresp
        | some b =>
          have hcol2 : collectAll svc [mkToolRequest (sidOpt.getD "") "fetch_net_worth",
              mkToolRequest (sidOpt.getD "") "fetch_credit_report"] = some datas := by
            rw [← hcol]
            simp [dashRequests, dashToolNames]
          obtain ⟨d0, d1, h0, h1, hdatas⟩ := collectAll_two_inv svc _ _ datas hcol2
          subst hdatas
          simp only [dashCompute, Option.bind_eq_some, bind, Option.some.injEq] at hcomp
          obtain ⟨t0, he0, v0, hp0, t1, he1, v1, hp1, -⟩ := hcomp
          exact ⟨d0, d1, t0, v0, t1, v1, h0, h1, he0, hp0, he1, hp1⟩
    · rw [handleDashboard] at hresp
      rw [Bool.not_eq_true] at hst
      rw [hst] at hresp
      simp at hresp

/-- C7 witness: a chat run whose tool invocation carries non-empty model
arguments (the relay body still sends empty arguments), and a successful
concrete dashboard run. -/
theorem relay_wire_format_witness :
    (∀ q ∈ (handleChat gemOnce svcOk 2 [] ⟨some "hi", some "s1"⟩).trace,
        q.url = goAdkUrl ++ "/mcp/stream" ∧ q.contentType = "application/json" ∧
        q.mcpSessionId = "s1" ∧
        bodyMember q.body "method" = some (.str "tools/call") ∧
        (∃ n, bodyMember q.body "params" =
          some (.obj [("name", .str n), ("arguments", .obj [])]))) ∧
    (∃ d0 d1 t0 v0 t1 v1,
      mockSvc wNwText wCrText (mkToolRequest "s1" "fetch_net_worth") = some d0 ∧
      mockSvc wNwText wCrText (mkToolRequest "s1" "fetch_credit_report") = some d1 ∧
      extractToolText d0 = some t0 ∧ jsJsonParseV t0 = some v0 ∧
      extractToolText d1 = some t1 ∧ jsJsonParseV t1 = some v1) :=
  ⟨relay_wire_format.1 gemOnce svcOk 2 [] ⟨some "hi", some "s1"⟩ "hi" "s1" rfl rfl rfl rfl,
   relay_wire_format.2.2 (mockSvc wNwText wCrText) [] (some "s1")
     (.obj [("netWorth", .num 100),
            ("assets", .arr [.obj [("type", .str "MUTUAL FUND"), ("value", .num 40)],
                             .obj [("type", .str "EPF"), ("value", .num 60)]]),
            ("creditScore", .num 746)]) rfl⟩
